import Mathlib

/-!
Shallow embedding of the AVF (arteriovenous fistula) hemodynamics simulator
core: blood-properties model, flow solver, geometry generator and the
WSS/OSI/RRT orchestrator, together with proofs of the specified properties.
Machine floating point is idealized as real arithmetic.
-/

open Real

namespace AVF

/-- A 2-D point, as used throughout the geometry generator. -/
structure Point2D where
  x : ℝ
  y : ℝ

/-- Clinical simulation parameters (source: types + constants.ts DEFAULT_PARAMS). -/
structure SimulationParams where
  arteryDiameter : ℝ
  veinDiameter : ℝ
  anastomosisAngle : ℝ
  baseFlowRate : ℝ
  bloodFlowRate : ℝ
  hematocrit : ℝ
  heartRate : ℝ
  bloodPressure : ℝ
  systolicRatio : ℝ

/-- Result of the resistive flow-split model. -/
structure FlowSplit where
  veinFlowRate : ℝ
  distalFlowRate : ℝ
  veinFraction : ℝ

/-- Flow split by the two-resistor parallel-conductance analogy
(source: flow-solver.ts, calculateFlowSplit). -/
noncomputable def calculateFlowSplit (params : SimulationParams) : FlowSplit :=
  let arteryRadius := params.arteryDiameter / 2
  let veinRadius := params.veinDiameter / 2
  let angleRad := params.anastomosisAngle * π / 180
  let veinLength : ℝ := 100
  let distalLength : ℝ := 80
  let R_vein := veinLength / veinRadius ^ 4
  let R_distal := distalLength / (arteryRadius * 0.8) ^ 4
  let angleCorrection := 1 + 0.5 * (angleRad / (π / 2)) ^ 2
  let R_vein_effective := R_vein * angleCorrection
  let totalConductance := 1 / R_vein_effective + 1 / R_distal
  let veinFraction := (1 / R_vein_effective) / totalConductance
  { veinFlowRate := params.bloodFlowRate * veinFraction
    distalFlowRate := params.bloodFlowRate * (1 - veinFraction)
    veinFraction := veinFraction }

/-- The unclamped sample of the pulsatile waveform at index i
(source: flow-solver.ts, generatePulsatileWaveform, body of the loop). -/
noncomputable def waveformRaw (heartRate systolicRatio : ℝ) (numSteps : ℕ) (i : ℕ) : ℝ :=
  let T := 60 / heartRate
  let t := ((i : ℝ) / numSteps) * T
  let phase := 2 * π * t / T
  let A1 := 0.6 * (systolicRatio / 0.35)
  let A2 := 0.25
  let A3 := 0.1
  1.0 + A1 * Real.sin phase + A2 * Real.sin (2 * phase - 0.3) + A3 * Real.sin (3 * phase - 0.6)

/-- Normalized pulsatile waveform: clamp each sample at 0.15, then divide by the
mean of the clamped samples (source: flow-solver.ts, generatePulsatileWaveform). -/
noncomputable def generatePulsatileWaveform (heartRate systolicRatio : ℝ)
    (numSteps : ℕ) : List ℝ :=
  let waveform := (List.range numSteps).map
    (fun i => max (waveformRaw heartRate systolicRatio numSteps i) 0.15)
  let mean := waveform.sum / waveform.length
  waveform.map (fun q => q / mean)

/- ### Generic list helpers -/

theorem list_range_map_sum (f : ℕ → ℝ) (n : ℕ) :
    ((List.range n).map f).sum = ∑ i ∈ Finset.range n, f i := by
  induction n with
  | zero => simp
  | succ m ih => rw [List.range_succ, Finset.sum_range_succ, List.map_append,
      List.sum_append, ih]; simp

theorem helper_frac_eq (x d : ℝ) (hx : 0 < x) (hd : 0 < d) :
    (1 / x) / (1 / x + 1 / d) = d / (x + d) := by
  have hsum : 0 < 1 / x + 1 / d := by positivity
  rw [div_eq_div_iff (by positivity) (by positivity)]
  field_simp
  ring

/- ### C2: flow split conservation and fraction bounds -/

theorem flowSplit_resistances_pos (p : SimulationParams)
    (ha : 0 < p.arteryDiameter) (hv : 0 < p.veinDiameter) :
    0 < 100 / (p.veinDiameter / 2) ^ 4 ∧ 0 < 80 / (p.arteryDiameter / 2 * 0.8) ^ 4 ∧
      0 < 1 + 0.5 * (p.anastomosisAngle * π / 180 / (π / 2)) ^ 2 := by
  refine ⟨by positivity, by positivity, by positivity⟩

/-- C2: for any positive artery and vein diameters and any anastomosis angle in
[15, 90], the flow split has veinFraction in [0, 1] and the vein and distal
flow rates sum exactly to the input blood flow rate. -/
theorem calculateFlowSplit_correct (p : SimulationParams)
    (ha : 0 < p.arteryDiameter) (hv : 0 < p.veinDiameter)
    (hlo : 15 ≤ p.anastomosisAngle) (hhi : p.anastomosisAngle ≤ 90) :
    0 ≤ (calculateFlowSplit p).veinFraction ∧
      (calculateFlowSplit p).veinFraction ≤ 1 ∧
      (calculateFlowSplit p).veinFlowRate + (calculateFlowSplit p).distalFlowRate
        = p.bloodFlowRate := by
  have hRv : 0 < 100 / (p.veinDiameter / 2) ^ 4 := by positivity
  have hRd : 0 < 80 / (p.arteryDiameter / 2 * 0.8) ^ 4 := by positivity
  have hAC : 0 < 1 + 0.5 * (p.anastomosisAngle * π / 180 / (π / 2)) ^ 2 := by positivity
  simp only [calculateFlowSplit]
  set Rve := 100 / (p.veinDiameter / 2) ^ 4 *
    (1 + 0.5 * (p.anastomosisAngle * π / 180 / (π / 2)) ^ 2) with hRveDef
  have hRve : 0 < Rve := mul_pos hRv hAC
  have hc1 : 0 < 1 / Rve := by positivity
  have hc2 : 0 < 1 / (80 / (p.arteryDiameter / 2 * 0.8) ^ 4) := by positivity
  refine ⟨by positivity, ?_, by ring⟩
  exact div_le_one_of_le₀ (by linarith) (by positivity)

/-- C2 witness at the default clinical parameters. -/
theorem calculateFlowSplit_correct_witness :
    0 ≤ (calculateFlowSplit ⟨4, 4, 45, 600, 600, 0.4, 75, 90, 0.35⟩).veinFraction ∧
      (calculateFlowSplit ⟨4, 4, 45, 600, 600, 0.4, 75, 90, 0.35⟩).veinFraction ≤ 1 ∧
      (calculateFlowSplit ⟨4, 4, 45, 600, 600, 0.4, 75, 90, 0.35⟩).veinFlowRate +
        (calculateFlowSplit ⟨4, 4, 45, 600, 600, 0.4, 75, 90, 0.35⟩).distalFlowRate = 600 :=
  calculateFlowSplit_correct ⟨4, 4, 45, 600, 600, 0.4, 75, 90, 0.35⟩
    (by norm_num) (by norm_num) (by norm_num) (by norm_num)

/- ### C10: veinFraction is strictly decreasing in the anastomosis angle -/

theorem veinFraction_closed_form (a v bf bQ h hr bp sr θ : ℝ)
    (ha : 0 < a) (hv : 0 < v) :
    (calculateFlowSplit ⟨a, v, θ, bf, bQ, h, hr, bp, sr⟩).veinFraction
      = (80 / (a / 2 * 0.8) ^ 4) /
        (100 / (v / 2) ^ 4 * (1 + 0.5 * (θ / 90) ^ 2) + 80 / (a / 2 * 0.8) ^ 4) := by
  have hsimp : θ * π / 180 / (π / 2) = θ / 90 := by
    field_simp [pi_ne_zero]
    ring
  simp only [calculateFlowSplit, hsimp]
  exact helper_frac_eq _ _ (by positivity) (by positivity)

/-- C10: for fixed positive diameters and fixed flow rate, the vein fraction of
the flow split strictly decreases as the anastomosis angle grows on (0, 90]. -/
theorem calculateFlowSplit_veinFraction_strictAnti (a v bf bQ h hr bp sr θ₁ θ₂ : ℝ)
    (ha : 0 < a) (hv : 0 < v) (h1 : 0 < θ₁) (hlt : θ₁ < θ₂) (h2 : θ₂ ≤ 90) :
    (calculateFlowSplit ⟨a, v, θ₂, bf, bQ, h, hr, bp, sr⟩).veinFraction
      < (calculateFlowSplit ⟨a, v, θ₁, bf, bQ, h, hr, bp, sr⟩).veinFraction := by
  rw [veinFraction_closed_form a v bf bQ h hr bp sr θ₁ ha hv,
    veinFraction_closed_form a v bf bQ h hr bp sr θ₂ ha hv]
  have hsq : (θ₁ / 90) ^ 2 < (θ₂ / 90) ^ 2 := by
    apply pow_lt_pow_left (by linarith) _ two_ne_zero
    have := div_pos h1 (show (0:ℝ) < 90 by norm_num)
    linarith
  have hK : (0:ℝ) < 100 / (v / 2) ^ 4 := by positivity
  have hmono : 100 / (v / 2) ^ 4 * (1 + 0.5 * (θ₁ / 90) ^ 2)
      < 100 / (v / 2) ^ 4 * (1 + 0.5 * (θ₂ / 90) ^ 2) := by
    apply mul_lt_mul_of_pos_left (by linarith) hK
  have hc1 : (0:ℝ) < 100 / (v / 2) ^ 4 * (1 + 0.5 * (θ₁ / 90) ^ 2) := by positivity
  have hRd : (0:ℝ) < 80 / (a / 2 * 0.8) ^ 4 := by positivity
  exact div_lt_div_of_pos_left hRd (by linarith) (by linarith)

/-- C10 witness: at diameters 4 mm, the vein fraction at a 60-degree angle is
strictly below the vein fraction at 30 degrees. -/
theorem calculateFlowSplit_veinFraction_strictAnti_witness :
    (calculateFlowSplit ⟨4, 4, 60, 600, 600, 0.4, 75, 90, 0.35⟩).veinFraction
      < (calculateFlowSplit ⟨4, 4, 30, 600, 600, 0.4, 75, 90, 0.35⟩).veinFraction :=
  calculateFlowSplit_veinFraction_strictAnti 4 4 600 600 0.4 75 90 0.35 30 60
    (by norm_num) (by norm_num) (by norm_num) (by norm_num) (by norm_num)

/- ### C1: pulsatile waveform normalization -/

theorem waveform_length (hr sr : ℝ) (n : ℕ) :
    (generatePulsatileWaveform hr sr n).length = n := by
  simp [generatePulsatileWaveform]

theorem waveform_clamped_sum_ge (hr sr : ℝ) (n : ℕ) :
    (0.15 : ℝ) * n ≤ ∑ i ∈ Finset.range n, max (waveformRaw hr sr n i) 0.15 := by
  calc (0.15 : ℝ) * n = ∑ _i ∈ Finset.range n, (0.15 : ℝ) := by
        rw [Finset.sum_const, Finset.card_range, nsmul_eq_mul, mul_comm]
    _ ≤ _ := Finset.sum_le_sum fun i _ => le_max_right _ _

theorem waveform_elem_pos (hr sr : ℝ) (n : ℕ) (hn : 0 < n) :
    ∀ q ∈ generatePulsatileWaveform hr sr n, 0 < q := by
  intro q hq
  simp only [generatePulsatileWaveform] at hq
  rw [List.mem_map] at hq
  obtain ⟨q', hq', rfl⟩ := hq
  rw [List.mem_map] at hq'
  obtain ⟨i, _hi, rfl⟩ := hq'
  have hsum : (0.15 : ℝ) * n ≤ ((List.range n).map
      (fun i => max (waveformRaw hr sr n i) 0.15)).sum := by
    rw [list_range_map_sum]; exact waveform_clamped_sum_ge hr sr n
  have hnpos : (0 : ℝ) < n := by exact_mod_cast hn
  have hmean : 0 < ((List.range n).map
      (fun i => max (waveformRaw hr sr n i) 0.15)).sum /
      (((List.range n).map (fun i => max (waveformRaw hr sr n i) 0.15)).length : ℝ) := by
    apply div_pos (by nlinarith) (by simpa using hnpos)
  exact div_pos (lt_of_lt_of_le (by norm_num) (le_max_right _ _)) hmean

/-- C1 (amended): for any heartRate in [50,120], systolicRatio in [0.1,0.6] and
positive step count, the returned sequence has mean exactly 1.0 and every
element strictly positive.  (Elements can fall below 0.15, since the 0.15
floor is applied before the renormalization divides by a mean that can
exceed 1; see the counterexample.) -/
theorem generatePulsatileWaveform_mean_one (hr sr : ℝ) (n : ℕ)
    (hhr1 : 50 ≤ hr) (hhr2 : hr ≤ 120) (hsr1 : 0.1 ≤ sr) (hsr2 : sr ≤ 0.6)
    (hn : 0 < n) :
    (generatePulsatileWaveform hr sr n).sum /
        ((generatePulsatileWaveform hr sr n).length : ℝ) = 1 ∧
      ∀ q ∈ generatePulsatileWaveform hr sr n, 0 < q := by
  refine ⟨?_, waveform_elem_pos hr sr n hn⟩
  have hnpos : (0 : ℝ) < n := by exact_mod_cast hn
  have hsum : (0.15 : ℝ) * n ≤ ∑ i ∈ Finset.range n, max (waveformRaw hr sr n i) 0.15 :=
    waveform_clamped_sum_ge hr sr n
  have hS : 0 < ∑ i ∈ Finset.range n, max (waveformRaw hr sr n i) 0.15 := by nlinarith
  simp only [generatePulsatileWaveform, List.map_map, waveform_length]
  rw [List.length_map, List.length_map, List.length_range, list_range_map_sum]
  simp only [Function.comp, List.length_map, List.length_range, list_range_map_sum]
  rw [← Finset.sum_div, div_div_eq_mul_div, div_eq_one_iff_eq (by positivity)]
  field_simp

/-- C1 amended-claim witness at the default parameters. -/
theorem generatePulsatileWaveform_mean_one_witness :
    (generatePulsatileWaveform 75 0.35 20).sum /
        ((generatePulsatileWaveform 75 0.35 20).length : ℝ) = 1 :=
  (generatePulsatileWaveform_mean_one 75 0.35 20 (by norm_num) (by norm_num)
    (by norm_num) (by norm_num) (by norm_num)).1

/- ### C1 counterexample: at heartRate 60, systolicRatio 0.6 the normalized
waveform has an element strictly below 0.15 -/

theorem waveformRaw_sixty (i : ℕ) :
    waveformRaw 60 0.6 20 i = 1 + 36 / 35 * Real.sin (π * i / 10)
      + 0.25 * Real.sin (π * i / 5 - 0.3) + 0.1 * Real.sin (3 * π * i / 10 - 0.6) := by
  simp only [waveformRaw]
  push_cast
  have h1 : 2 * π * ((i : ℝ) / 20 * (60 / 60)) / (60 / 60) = π * i / 10 := by ring
  have h2 : 2 * (π * (i : ℝ) / 10) - 0.3 = π * i / 5 - 0.3 := by ring
  have h3 : 3 * (π * (i : ℝ) / 10) - 0.6 = 3 * π * i / 10 - 0.6 := by ring
  rw [h1, h2, h3]
  norm_num

theorem sum_sin_S1 : ∑ i ∈ Finset.range 20, Real.sin (π * i / 10) = 0 := by
  rw [show (20 : ℕ) = 10 + 10 from rfl, Finset.sum_range_add]
  have h : ∀ i ∈ Finset.range 10,
      Real.sin (π * ((10 + i : ℕ) : ℝ) / 10) = -Real.sin (π * i / 10) := by
    intro i _
    push_cast
    rw [show π * (10 + (i : ℝ)) / 10 = π * i / 10 + π by ring, Real.sin_add_pi]
  rw [Finset.sum_congr rfl h, Finset.sum_neg_distrib]
  ring

theorem sum_sin_S2 : ∑ i ∈ Finset.range 20, Real.sin (π * i / 5 - 0.3) = 0 := by
  have hp : ∀ i ∈ Finset.range 10,
      Real.sin (π * ((10 + i : ℕ) : ℝ) / 5 - 0.3) = Real.sin (π * i / 5 - 0.3) := by
    intro i _
    push_cast
    rw [show π * (10 + (i : ℝ)) / 5 - 0.3 = (π * i / 5 - 0.3) + 2 * π by ring,
      Real.sin_add_two_pi]
  have hh : ∀ i ∈ Finset.range 5,
      Real.sin (π * ((5 + i : ℕ) : ℝ) / 5 - 0.3) = -Real.sin (π * i / 5 - 0.3) := by
    intro i _
    push_cast
    rw [show π * (5 + (i : ℝ)) / 5 - 0.3 = (π * i / 5 - 0.3) + π by ring,
      Real.sin_add_pi]
  have h10 : ∑ i ∈ Finset.range 10, Real.sin (π * i / 5 - 0.3) = 0 := by
    rw [show (10 : ℕ) = 5 + 5 from rfl, Finset.sum_range_add,
      Finset.sum_congr rfl hh, Finset.sum_neg_distrib]
    ring
  rw [show (20 : ℕ) = 10 + 10 from rfl, Finset.sum_range_add,
    Finset.sum_congr rfl hp, h10]
  ring

theorem sum_sin_S3 : ∑ i ∈ Finset.range 20, Real.sin (3 * π * i / 10 - 0.6) = 0 := by
  rw [show (20 : ℕ) = 10 + 10 from rfl, Finset.sum_range_add]
  have h : ∀ i ∈ Finset.range 10,
      Real.sin (3 * π * ((10 + i : ℕ) : ℝ) / 10 - 0.6)
        = -Real.sin (3 * π * i / 10 - 0.6) := by
    intro i _
    push_cast
    rw [show 3 * π * (10 + (i : ℝ)) / 10 - 0.6
        = ((3 * π * i / 10 - 0.6) + π) + 2 * π by ring,
      Real.sin_add_two_pi, Real.sin_add_pi]
  rw [Finset.sum_congr rfl h, Finset.sum_neg_distrib]
  ring

theorem sum_waveformRaw_sixty :
    ∑ i ∈ Finset.range 20, waveformRaw 60 0.6 20 i = 20 := by
  have h : ∀ i ∈ Finset.range 20, waveformRaw 60 0.6 20 i
      = 1 + 36 / 35 * Real.sin (π * i / 10)
        + 0.25 * Real.sin (π * i / 5 - 0.3)
        + 0.1 * Real.sin (3 * π * i / 10 - 0.6) := fun i _ => waveformRaw_sixty i
  rw [Finset.sum_congr rfl h]
  simp only [Finset.sum_add_distrib, ← Finset.mul_sum, sum_sin_S1, sum_sin_S2, sum_sin_S3]
  norm_num

theorem waveformRaw_sixty_at_fifteen : waveformRaw 60 0.6 20 15 < 0.15 := by
  rw [waveformRaw_sixty 15]
  push_cast
  have e1 : π * 15 / 10 = π / 2 + π := by ring
  have e2 : π * 15 / 5 - 0.3 = (π - 0.3) + 2 * π := by ring
  have e3 : 3 * π * 15 / 10 - 0.6 = ((π / 2 - 0.6) + 2 * π) + 2 * π := by ring
  rw [e1, e2, e3, Real.sin_add_pi, Real.sin_pi_div_two, Real.sin_add_two_pi,
    Real.sin_add_two_pi, Real.sin_add_two_pi]
  have hs : Real.sin (π - 0.3) = Real.sin 0.3 := Real.sin_pi_sub 0.3
  have hc : Real.sin (π / 2 - 0.6) = Real.cos 0.6 := Real.sin_pi_div_two_sub 0.6
  rw [hs, hc]
  have h03 : Real.sin 0.3 < 0.3 := Real.sin_lt (by norm_num)
  have h06 : Real.cos 0.6 ≤ 1 := Real.cos_le_one 0.6
  nlinarith

theorem waveform_clamped_sum_sixty_gt :
    20 < ∑ i ∈ Finset.range 20, max (waveformRaw 60 0.6 20 i) 0.15 := by
  have hstep : ∑ i ∈ Finset.range 20, waveformRaw 60 0.6 20 i
      < ∑ i ∈ Finset.range 20, max (waveformRaw 60 0.6 20 i) 0.15 := by
    apply Finset.sum_lt_sum (fun i _ => le_max_left _ _)
    refine ⟨15, by norm_num, ?_⟩
    calc waveformRaw 60 0.6 20 15 < 0.15 := waveformRaw_sixty_at_fifteen
      _ ≤ max (waveformRaw 60 0.6 20 15) 0.15 := le_max_right _ _
  calc (20 : ℝ) = ∑ i ∈ Finset.range 20, waveformRaw 60 0.6 20 i :=
        sum_waveformRaw_sixty.symm
    _ < _ := hstep

/-- C1 counterexample: at heartRate 60 (in [50,120]), systolicRatio 0.6
(in [0.1,0.6]) and the default 20 steps, not every element of the returned
waveform is at least 0.15 — the clamped trough sample, divided by a
pre-normalization mean greater than 1, lands strictly below 0.15. -/
theorem generatePulsatileWaveform_elem_ge_cex :
    ¬ ∀ q ∈ generatePulsatileWaveform 60 0.6 20, (0.15 : ℝ) ≤ q := by
  intro hall
  set w := (List.range 20).map (fun i => max (waveformRaw 60 0.6 20 i) 0.15) with hw
  have hgen : generatePulsatileWaveform 60 0.6 20
      = w.map (fun q => q / (w.sum / (w.length : ℝ))) := rfl
  have h15w : max (waveformRaw 60 0.6 20 15) 0.15 ∈ w := by
    rw [hw]
    exact List.mem_map_of_mem _ (by simp)
  have hmem := List.mem_map_of_mem (fun q => q / (w.sum / (w.length : ℝ))) h15w
  rw [← hgen] at hmem
  have hle := hall _ hmem
  have hmax : max (waveformRaw 60 0.6 20 15) 0.15 = 0.15 :=
    max_eq_right (le_of_lt waveformRaw_sixty_at_fifteen)
  have hlen : (w.length : ℝ) = 20 := by simp [hw]
  have hsum : 20 < w.sum := by
    rw [hw, list_range_map_sum]; exact waveform_clamped_sum_sixty_gt
  have hm : 1 < w.sum / (w.length : ℝ) := by
    rw [hlen, lt_div_iff (by norm_num : (0:ℝ) < 20)]; linarith
  have hsmall : max (waveformRaw 60 0.6 20 15) 0.15 / (w.sum / (w.length : ℝ)) < 0.15 := by
    rw [hmax]; exact div_lt_self (by norm_num) hm
  simp only [hmax] at hle hsmall
  linarith

/- ### Blood properties model (source: blood-properties.ts, constants.ts) -/

/-- Carreau model base parameters (source: constants.ts, CARREAU). -/
structure CarreauParams where
  mu_inf : ℝ
  mu_0 : ℝ
  lambda : ℝ
  n : ℝ

def CARREAU : CarreauParams := ⟨0.00345, 0.056, 3.313, 0.3568⟩

/-- One row of the hematocrit-indexed viscosity table. -/
structure HctEntry where
  hct : ℝ
  mu_inf : ℝ
  mu_0 : ℝ
deriving Inhabited

/-- Hct-dependent viscosity table (source: constants.ts, HCT_VISCOSITY_TABLE). -/
def HCT_VISCOSITY_TABLE : List HctEntry :=
  [⟨20, 0.00220, 0.025⟩, ⟨25, 0.00260, 0.032⟩, ⟨30, 0.00280, 0.037⟩,
   ⟨35, 0.00300, 0.042⟩, ⟨40, 0.00320, 0.048⟩, ⟨45, 0.00345, 0.056⟩,
   ⟨50, 0.00400, 0.065⟩, ⟨55, 0.00450, 0.075⟩]

def BLOOD_DENSITY : ℝ := 1060

/-- The bracket-search loop of interpolateHctParams: scan adjacent table rows
and linearly interpolate inside the first bracketing pair
(source: blood-properties.ts, interpolateHctParams, for-loop). -/
noncomputable def findInterp (hct : ℝ) : List HctEntry → Option (ℝ × ℝ)
  | ⟨h1, mi1, m01⟩ :: ⟨h2, mi2, m02⟩ :: rest =>
    if h1 ≤ hct ∧ hct ≤ h2 then
      some (mi1 + (hct - h1) / (h2 - h1) * (mi2 - mi1),
            m01 + (hct - h1) / (h2 - h1) * (m02 - m01))
    else findInterp hct (⟨h2, mi2, m02⟩ :: rest)
  | _ => none

/-- Hct-dependent Carreau parameters (mu-infinity, mu-zero): clamp to the first
or last table row outside the table's range, otherwise linear interpolation
(source: blood-properties.ts, interpolateHctParams). -/
noncomputable def interpolateHctParams (hct : ℝ) : ℝ × ℝ :=
  let table := HCT_VISCOSITY_TABLE
  let t0 := table.headI
  let tLast := table.getLastI
  if hct ≤ t0.hct then (t0.mu_inf, t0.mu_0)
  else if tLast.hct ≤ hct then (tLast.mu_inf, tLast.mu_0)
  else (findInterp hct table).getD (CARREAU.mu_inf, CARREAU.mu_0)

/-- Carreau viscosity (source: blood-properties.ts, carreauViscosity). -/
noncomputable def carreauViscosity (shearRate hct : ℝ) : ℝ :=
  let p := interpolateHctParams hct
  let mu_inf := p.1
  let mu_0 := p.2
  let lambda := CARREAU.lambda
  let n := CARREAU.n
  let gammaDotClamped := max shearRate 0.1
  let term := 1 + (lambda * gammaDotClamped) ^ 2
  mu_inf + (mu_0 - mu_inf) * term ^ ((n - 1) / 2)

/-- Poiseuille wall shear rate with Rabinowitsch correction
(source: blood-properties.ts, wallShearRate). -/
noncomputable def wallShearRate (flowRate_m3s radius_m : ℝ) : ℝ :=
  let n := CARREAU.n
  let newtonianShearRate := 4 * flowRate_m3s / (π * radius_m ^ 3)
  (3 * n + 1) / (4 * n) * newtonianShearRate

/-- Mean velocity (source: blood-properties.ts, meanVelocity). -/
noncomputable def meanVelocity (flowRate_m3s radius_m : ℝ) : ℝ :=
  flowRate_m3s / (π * radius_m * radius_m)

/-- Reynolds number (source: blood-properties.ts, reynoldsNumber). -/
noncomputable def reynoldsNumber (velocity diameter_m viscosity : ℝ) : ℝ :=
  BLOOD_DENSITY * velocity * diameter_m / viscosity

structure BloodProperties where
  viscosity : ℝ
  density : ℝ
  reynoldsNumber : ℝ
  shearRate : ℝ

/-- Self-consistent blood-property computation: five iterations of
(shear rate, then viscosity) starting from (mu-infinity, 0)
(source: blood-properties.ts, calculateBloodProperties). -/
noncomputable def calculateBloodProperties (flowRate_mLmin diameter_mm hct : ℝ) :
    BloodProperties :=
  let flowRate_m3s := flowRate_mLmin / (1e6 * 60)
  let radius_m := diameter_mm / 2 * 1e-3
  let diameter_m := diameter_mm * 1e-3
  let iter := (List.range 5).foldl
    (fun _st _i =>
      let sr := wallShearRate flowRate_m3s radius_m
      (carreauViscosity sr hct, sr))
    (CARREAU.mu_inf, (0 : ℝ))
  let velocity := meanVelocity flowRate_m3s radius_m
  { viscosity := iter.1
    density := BLOOD_DENSITY
    reynoldsNumber := reynoldsNumber velocity diameter_m iter.1
    shearRate := iter.2 }

/-- Spec-side comparison definition for C3: mu-infinity and mu-zero obtained by
linear interpolation overate the fixed 8-point hematocrit table, clamped to
the table's endpoints outside [20, 55] (spec 4.1 and 8). -/
noncomputable def interpolateHctParamsSpec (hct : ℝ) : ℝ × ℝ :=
  if hct ≤ 20 then (0.00220, 0.025)
  else if hct ≤ 25 then
    (0.00220 + (hct - 20) / (25 - 20) * (0.00260 - 0.00220),
     0.025 + (hct - 20) / (25 - 20) * (0.032 - 0.025))
  else if hct ≤ 30 then
    (0.00260 + (hct - 25) / (30 - 25) * (0.00280 - 0.00260),
     0.032 + (hct - 25) / (30 - 25) * (0.037 - 0.032))
  else if hct ≤ 35 then
    (0.00280 + (hct - 30) / (35 - 30) * (0.00300 - 0.00280),
     0.037 + (hct - 30) / (35 - 30) * (0.042 - 0.037))
  else if hct ≤ 40 then
    (0.00300 + (hct - 35) / (40 - 35) * (0.00320 - 0.00300),
     0.042 + (hct - 35) / (40 - 35) * (0.048 - 0.042))
  else if hct ≤ 45 then
    (0.00320 + (hct - 40) / (45 - 40) * (0.00345 - 0.00320),
     0.048 + (hct - 40) / (45 - 40) * (0.056 - 0.048))
  else if hct ≤ 50 then
    (0.00345 + (hct - 45) / (50 - 45) * (0.00400 - 0.00345),
     0.056 + (hct - 45) / (50 - 45) * (0.065 - 0.056))
  else if hct ≤ 55 then
    (0.00400 + (hct - 50) / (55 - 50) * (0.00450 - 0.00400),
     0.065 + (hct - 50) / (55 - 50) * (0.075 - 0.065))
  else (0.00450, 0.075)

theorem interpolateHctParams_unfold (hct : ℝ) :
    interpolateHctParams hct =
      if hct ≤ 20 then (0.00220, 0.025)
      else if 55 ≤ hct then (0.00450, 0.075)
      else (findInterp hct HCT_VISCOSITY_TABLE).getD (CARREAU.mu_inf, CARREAU.mu_0) := rfl

theorem interpolateHctParams_eq_spec (hct : ℝ) :
    interpolateHctParams hct = interpolateHctParamsSpec hct := by
  rw [interpolateHctParams_unfold, interpolateHctParamsSpec]
  rcases le_or_lt hct 20 with h20 | h20
  · rw [if_pos h20, if_pos h20]
  rw [if_neg (not_le.mpr h20), if_neg (not_le.mpr h20)]
  rcases le_or_lt 55 hct with h55 | h55
  on_goal 1 =>
    rw [if_pos h55]
    rcases eq_or_lt_of_le h55 with heq | hgt
    · rw [← heq]; norm_num
    · rw [if_neg (by linarith), if_neg (by linarith), if_neg (by linarith),
        if_neg (by linarith), if_neg (by linarith), if_neg (by linarith),
        if_neg (by linarith)]
  rw [if_neg (not_le.mpr h55)]
  simp only [HCT_VISCOSITY_TABLE, findInterp]
  rcases le_or_lt hct 25 with h25 | h25
  · rw [if_pos ⟨h20.le, h25⟩, if_pos h25, Option.getD_some]
  rw [if_neg (by rintro ⟨-, hx⟩; linarith), if_neg (not_le.mpr h25)]
  rcases le_or_lt hct 30 with h30 | h30
  · rw [if_pos ⟨h25.le, h30⟩, if_pos h30, Option.getD_some]
  rw [if_neg (by rintro ⟨-, hx⟩; linarith), if_neg (not_le.mpr h30)]
  rcases le_or_lt hct 35 with h35 | h35
  · rw [if_pos ⟨h30.le, h35⟩, if_pos h35, Option.getD_some]
  rw [if_neg (by rintro ⟨-, hx⟩; linarith), if_neg (not_le.mpr h35)]
  rcases le_or_lt hct 40 with h40 | h40
  · rw [if_pos ⟨h35.le, h40⟩, if_pos h40, Option.getD_some]
  rw [if_neg (by rintro ⟨-, hx⟩; linarith), if_neg (not_le.mpr h40)]
  rcases le_or_lt hct 45 with h45 | h45
  · rw [if_pos ⟨h40.le, h45⟩, if_pos h45, Option.getD_some]
  rw [if_neg (by rintro ⟨-, hx⟩; linarith), if_neg (not_le.mpr h45)]
  rcases le_or_lt hct 50 with h50 | h50
  · rw [if_pos ⟨h45.le, h50⟩, if_pos h50, Option.getD_some]
  rw [if_neg (by rintro ⟨-, hx⟩; linarith), if_neg (not_le.mpr h50)]
  rw [if_pos ⟨h50.le, h55.le⟩, if_pos h55.le, Option.getD_some]

theorem interpolateHctParams_le (hct : ℝ) :
    0.0022 ≤ (interpolateHctParams hct).1 ∧
      (interpolateHctParams hct).1 ≤ (interpolateHctParams hct).2 := by
  rw [interpolateHctParams_eq_spec, interpolateHctParamsSpec]
  split_ifs with h1 h2 h3 h4 h5 h6 h7 h8 <;>
    simp only [not_le] at * <;> exact ⟨by nlinarith, by nlinarith⟩

/-- C3: interpolateHctParams agrees everywhere with the spec's clamped
piecewise-linear interpolant over the fixed 8-point hematocrit table (linear
interpolation inside [20, 55], nearest-endpoint values outside); in
particular any hematocrit supplied as a 0-1 ratio through the external
interface lies below the table range and receives the low-endpoint values. -/
theorem interpolateHctParams_correct (hct : ℝ) :
    interpolateHctParams hct = interpolateHctParamsSpec hct ∧
      (0 ≤ hct → hct ≤ 1 → interpolateHctParams hct = (0.00220, 0.025)) := by
  refine ⟨interpolateHctParams_eq_spec hct, fun _ h1 => ?_⟩
  rw [interpolateHctParams_eq_spec hct, interpolateHctParamsSpec,
    if_pos (by linarith : hct ≤ 20)]

/-- C3 witness: the default interface hematocrit 0.40 (a 0-1 ratio) receives
the 20-percent table row's parameters. -/
theorem interpolateHctParams_correct_witness :
    interpolateHctParams 0.4 = (0.00220, 0.025) :=
  (interpolateHctParams_correct 0.4).2 (by norm_num) (by norm_num)

/-- C8: for every shear rate and every hematocrit, the Carreau viscosity lies
between the interpolated mu-infinity (never below it) and mu-zero
(inclusive). -/
theorem carreauViscosity_between (shearRate hct : ℝ) :
    (interpolateHctParams hct).1 ≤ carreauViscosity shearRate hct ∧
      carreauViscosity shearRate hct ≤ (interpolateHctParams hct).2 := by
  obtain ⟨hpos, hle⟩ := interpolateHctParams_le hct
  simp only [carreauViscosity]
  have hterm : (1 : ℝ) ≤ 1 + (CARREAU.lambda * max shearRate 0.1) ^ 2 := by
    nlinarith [sq_nonneg (CARREAU.lambda * max shearRate 0.1)]
  have hexp : ((CARREAU.n - 1) / 2 : ℝ) ≤ 0 := by norm_num [CARREAU]
  have h1 : (1 + (CARREAU.lambda * max shearRate 0.1) ^ 2) ^ ((CARREAU.n - 1) / 2) ≤ 1 :=
    Real.rpow_le_one_of_one_le_of_nonpos hterm hexp
  have h2 : 0 < (1 + (CARREAU.lambda * max shearRate 0.1) ^ 2) ^ ((CARREAU.n - 1) / 2) :=
    Real.rpow_pos_of_pos (by nlinarith) _
  constructor
  · nlinarith [mul_nonneg (sub_nonneg.mpr hle) h2.le]
  · nlinarith [mul_le_of_le_one_right (sub_nonneg.mpr hle) h1]

/-- Every Carreau viscosity is strictly positive (at least the smallest
mu-infinity of the table). -/
theorem carreauViscosity_pos (shearRate hct : ℝ) :
    0 < carreauViscosity shearRate hct := by
  have h1 := (interpolateHctParams_le hct).1
  have h2 := (carreauViscosity_between shearRate hct).1
  linarith

/-- C9: the 5-iteration self-consistency loop of calculateBloodProperties
returns exactly the single-pass values — one evaluation of the wall shear
rate followed by one Carreau viscosity evaluation — because the implemented
wall shear rate does not depend on viscosity. -/
theorem calculateBloodProperties_eq_single_pass (flowRate_mLmin diameter_mm hct : ℝ) :
    (calculateBloodProperties flowRate_mLmin diameter_mm hct).viscosity
        = carreauViscosity
            (wallShearRate (flowRate_mLmin / (1e6 * 60)) (diameter_mm / 2 * 1e-3)) hct ∧
      (calculateBloodProperties flowRate_mLmin diameter_mm hct).shearRate
        = wallShearRate (flowRate_mLmin / (1e6 * 60)) (diameter_mm / 2 * 1e-3) :=
  ⟨rfl, rfl⟩

/- ### Geometry generator (source: geometry.ts, constants.ts CANVAS) -/

def CANVAS_width : ℝ := 800
def CANVAS_height : ℝ := 500
def CANVAS_vesselScale : ℝ := 28

/-- The eight wall region tags (source: types, RegionType). -/
inductive RegionType where
  | proximal_artery
  | distal_artery
  | vein_outer
  | vein_inner
  | anastomosis_toe
  | anastomosis_heel
  | anastomosis_floor
  | anastomosis_outer
deriving DecidableEq

def allRegionTypes : List RegionType :=
  [.proximal_artery, .distal_artery, .vein_outer, .vein_inner,
   .anastomosis_toe, .anastomosis_heel, .anastomosis_floor, .anastomosis_outer]

theorem regionType_mem_all (r : RegionType) : r ∈ allRegionTypes := by
  cases r <;> simp [allRegionTypes]

/-- Whether a region is vein-associated
(source: wss-calculator.ts, regionType.startsWith of the string vein). -/
def RegionType.isVein : RegionType → Bool
  | .vein_outer => true
  | .vein_inner => true
  | _ => false

/-- A wall sample point with region tag (source: types, WallPoint). -/
structure WallPoint where
  point : Point2D
  normal : Point2D
  regionType : RegionType
  paramPosition : ℝ

structure VesselGeometry where
  arteryCenterline : List Point2D
  veinCenterline : List Point2D
  arteryUpperWall : List Point2D
  arteryLowerWall : List Point2D
  veinOuterWall : List Point2D
  veinInnerWall : List Point2D
  anastomosisPoint : Point2D
  wallPoints : List WallPoint
  recirculationZone : List Point2D
  arteryLength : ℝ
  veinLength : ℝ
  arteryDiameter : ℝ
  veinDiameter : ℝ
  anastomosisAngle : ℝ

/-- Point on a cubic Bezier curve (source: geometry.ts, cubicBezier). -/
noncomputable def cubicBezier (t : ℝ) (p0 p1 p2 p3 : Point2D) : Point2D :=
  let mt := 1 - t
  let mt2 := mt * mt
  let mt3 := mt2 * mt
  let t2 := t * t
  let t3 := t2 * t
  ⟨mt3 * p0.x + 3 * mt2 * t * p1.x + 3 * mt * t2 * p2.x + t3 * p3.x,
   mt3 * p0.y + 3 * mt2 * t * p1.y + 3 * mt * t2 * p2.y + t3 * p3.y⟩

/-- Unnormalized derivative of a cubic Bezier curve
(source: geometry.ts, cubicBezierTangent, the dx and dy computation). -/
noncomputable def cubicBezierDeriv (t : ℝ) (p0 p1 p2 p3 : Point2D) : Point2D :=
  let mt := 1 - t
  let mt2 := mt * mt
  let t2 := t * t
  ⟨3 * mt2 * (p1.x - p0.x) + 6 * mt * t * (p2.x - p1.x) + 3 * t2 * (p3.x - p2.x),
   3 * mt2 * (p1.y - p0.y) + 6 * mt * t * (p2.y - p1.y) + 3 * t2 * (p3.y - p2.y)⟩

/-- Normalized tangent of a cubic Bezier curve: the derivative divided by its
Euclidean length (source: geometry.ts, cubicBezierTangent). -/
noncomputable def cubicBezierTangent (t : ℝ) (p0 p1 p2 p3 : Point2D) : Point2D :=
  let d := cubicBezierDeriv t p0 p1 p2 p3
  let len := Real.sqrt (d.x ^ 2 + d.y ^ 2)
  ⟨d.x / len, d.y / len⟩

noncomputable def geomCx : ℝ := CANVAS_width / 2
noncomputable def geomCy : ℝ := CANVAS_height * 0.65
def veinCurveLength : ℝ := 350

/-- Vein-centerline Bezier control points (source: geometry.ts,
generateGeometry, p0 through p3). -/
noncomputable def veinP0 : Point2D := ⟨geomCx, geomCy⟩

noncomputable def veinP1 (angleRad : ℝ) : Point2D :=
  ⟨geomCx + Real.cos (π - angleRad) * veinCurveLength * 0.4,
   geomCy - Real.sin angleRad * veinCurveLength * 0.4⟩

noncomputable def veinP3 : Point2D :=
  ⟨geomCx - veinCurveLength * 0.8, geomCy - veinCurveLength * 0.8⟩

noncomputable def veinP2 : Point2D :=
  ⟨veinP3.x + veinCurveLength * 0.4, veinP3.y⟩

/-- Toe connection patch between artery upper wall and vein outer wall
(source: geometry.ts, generateSmoothConnection). -/
noncomputable def generateSmoothConnection (arteryWall veinWall : List Point2D)
    (cx toeY : ℝ) (numPts : ℕ) : List Point2D :=
  let arteryPt : Point2D := ⟨cx + 5, toeY⟩
  let veinPt := veinWall.getD (min 5 (veinWall.length - 1)) ⟨0, 0⟩
  let cp1 : Point2D := ⟨arteryPt.x + 20, arteryPt.y⟩
  let cp2 : Point2D := ⟨veinPt.x + 10, veinPt.y + 10⟩
  (List.range (numPts + 1)).map
    (fun i => cubicBezier ((i : ℝ) / numPts) arteryPt cp1 cp2 veinPt)

/-- Carve the anastomosis opening into the artery upper wall
(source: geometry.ts, modifyArteryWallForAnastomosis). -/
noncomputable def modifyArteryWallForAnastomosis (upperWall : List Point2D)
    (cx veinRadius angleRad arteryRadius : ℝ) : List Point2D :=
  let openingWidth := veinRadius * 2 / Real.sin angleRad
  let halfOpening := openingWidth / 2
  let heelX := cx - halfOpening * 0.8
  let toeX := cx + halfOpening * 0.8
  upperWall.map (fun p =>
    if heelX < p.x ∧ p.x < toeX then ⟨p.x, p.y + arteryRadius * 0.8⟩ else p)

/-- Heuristic recirculation-zone polygon
(source: geometry.ts, estimateRecirculationZone). -/
noncomputable def estimateRecirculationZone (cx cy arteryRadius veinRadius angleRad : ℝ) :
    List Point2D :=
  let zoneLengthFactor := 1.0 + 1.5 * Real.sin angleRad
  let zoneLength := veinRadius * 2 * zoneLengthFactor
  let zoneWidth := arteryRadius * 0.5
  (List.range 17).map (fun i =>
    let t := (i : ℝ) / 16
    let angle := t * π
    (⟨cx + zoneLength * 0.4 + zoneLength * 0.6 * Real.cos angle,
      cy + arteryRadius * 0.4 - zoneWidth * Real.sin angle * (1 - 0.2 * t)⟩ : Point2D))

/-- Consolidated wall-point sequence with region tags
(source: geometry.ts, generateWallPoints). -/
noncomputable def generateWallPoints (arteryUpper arteryLower veinOuter veinInner
    veinNormals toeConnection : List Point2D) (cx cy arteryRadius angleRad : ℝ) :
    List WallPoint :=
  let upperPts := (List.range arteryUpper.length).filterMap (fun i =>
    let p := arteryUpper.getD i ⟨0, 0⟩
    let t := (i : ℝ) / ((arteryUpper.length - 1 : ℕ) : ℝ)
    let dx := p.x - cx
    let region : RegionType :=
      if arteryRadius < dx then .distal_artery
      else if |dx| < arteryRadius then
        (if dx < 0 then .anastomosis_heel else .anastomosis_toe)
      else .proximal_artery
    if cy - arteryRadius + 5 < p.y then none
    else some ⟨p, ⟨0, -1⟩, region, t⟩)
  let toePts := (List.range toeConnection.length).map (fun i =>
    let p := toeConnection.getD i ⟨0, 0⟩
    let t := (i : ℝ) / ((toeConnection.length - 1 : ℕ) : ℝ)
    (⟨p, ⟨Real.cos (π / 4), -Real.sin (π / 4)⟩, .anastomosis_toe, t⟩ : WallPoint))
  let lowerPts := (List.range arteryLower.length).map (fun i =>
    let p := arteryLower.getD i ⟨0, 0⟩
    let t := (i : ℝ) / ((arteryLower.length - 1 : ℕ) : ℝ)
    let dx := p.x - cx
    let region : RegionType :=
      if arteryRadius * 0.5 < dx then .distal_artery
      else if |dx| < arteryRadius * 1.5 then .anastomosis_floor
      else .proximal_artery
    (⟨p, ⟨0, 1⟩, region, t⟩ : WallPoint))
  let outerPts := (List.range veinOuter.length).filterMap (fun i =>
    if i < 3 then none
    else
      let p := veinOuter.getD i ⟨0, 0⟩
      let t := (i : ℝ) / ((veinOuter.length - 1 : ℕ) : ℝ)
      some (⟨p, veinNormals.getD i ⟨0, 0⟩,
        (if t < 0.2 then .anastomosis_outer else .vein_outer), t⟩ : WallPoint))
  let innerPts := (List.range veinInner.length).filterMap (fun i =>
    if i < 3 then none
    else
      let p := veinInner.getD i ⟨0, 0⟩
      let t := (i : ℝ) / ((veinInner.length - 1 : ℕ) : ℝ)
      let nrm := veinNormals.getD i ⟨0, 0⟩
      some (⟨p, ⟨-nrm.x, -nrm.y⟩,
        (if t < 0.2 then .anastomosis_floor else .vein_inner), t⟩ : WallPoint))
  upperPts ++ toePts ++ lowerPts ++ outerPts ++ innerPts

/-- End-to-side anastomosis geometry (source: geometry.ts, generateGeometry). -/
noncomputable def generateGeometry (arteryDiameter veinDiameter anastomosisAngle : ℝ) :
    VesselGeometry :=
  let scale := CANVAS_vesselScale
  let cx := geomCx
  let cy := geomCy
  let arteryRadius := arteryDiameter / 2 * scale
  let veinRadius := veinDiameter / 2 * scale
  let angleRad := anastomosisAngle * π / 180
  let anastomosisPoint : Point2D := ⟨cx, cy⟩
  let arteryLength := CANVAS_width * 0.8
  let numArteryPts : ℕ := 60
  let arteryCenterline := (List.range numArteryPts).map (fun i =>
    let t := (i : ℝ) / ((numArteryPts - 1 : ℕ) : ℝ)
    (⟨cx - arteryLength / 2 + t * arteryLength, cy⟩ : Point2D))
  let numVeinPts : ℕ := 50
  let veinCenterline := (List.range numVeinPts).map (fun i =>
    cubicBezier ((i : ℝ) / ((numVeinPts - 1 : ℕ) : ℝ)) veinP0 (veinP1 angleRad) veinP2 veinP3)
  let veinNormals := (List.range numVeinPts).map (fun i =>
    let tangent := cubicBezierTangent ((i : ℝ) / ((numVeinPts - 1 : ℕ) : ℝ))
      veinP0 (veinP1 angleRad) veinP2 veinP3
    (⟨-tangent.y, tangent.x⟩ : Point2D))
  let arteryUpperWall := arteryCenterline.map (fun p => (⟨p.x, p.y - arteryRadius⟩ : Point2D))
  let arteryLowerWall := arteryCenterline.map (fun p => (⟨p.x, p.y + arteryRadius⟩ : Point2D))
  let veinOuterWall := (List.range numVeinPts).map (fun i =>
    let p := veinCenterline.getD i ⟨0, 0⟩
    let nrm := veinNormals.getD i ⟨0, 0⟩
    (⟨p.x + veinRadius * nrm.x, p.y + veinRadius * nrm.y⟩ : Point2D))
  let veinInnerWall := (List.range numVeinPts).map (fun i =>
    let p := veinCenterline.getD i ⟨0, 0⟩
    let nrm := veinNormals.getD i ⟨0, 0⟩
    (⟨p.x - veinRadius * nrm.x, p.y - veinRadius * nrm.y⟩ : Point2D))
  let toeConnection := generateSmoothConnection arteryUpperWall veinOuterWall
    cx (cy - arteryRadius) 15
  let modifiedArteryUpper := modifyArteryWallForAnastomosis arteryUpperWall
    cx veinRadius angleRad arteryRadius
  let recirculationZone := estimateRecirculationZone cx cy arteryRadius veinRadius angleRad
  let wallPoints := generateWallPoints modifiedArteryUpper arteryLowerWall
    veinOuterWall veinInnerWall veinNormals toeConnection cx cy arteryRadius angleRad
  { arteryCenterline := arteryCenterline
    veinCenterline := veinCenterline
    arteryUpperWall := modifiedArteryUpper
    arteryLowerWall := arteryLowerWall
    veinOuterWall := veinOuterWall
    veinInnerWall := veinInnerWall
    anastomosisPoint := anastomosisPoint
    wallPoints := wallPoints
    recirculationZone := recirculationZone
    arteryLength := arteryLength
    veinLength := veinCurveLength
    arteryDiameter := arteryDiameter
    veinDiameter := veinDiameter
    anastomosisAngle := anastomosisAngle }

/- ### C6: wall-point invariants -/

theorem param_frac_bounds (i n : ℕ) (h : i < n) :
    0 ≤ (i : ℝ) / ((n - 1 : ℕ) : ℝ) ∧ (i : ℝ) / ((n - 1 : ℕ) : ℝ) ≤ 1 := by
  refine ⟨by positivity, ?_⟩
  rcases Nat.lt_or_ge n 2 with h2 | h2
  · interval_cases n
    · omega
    · interval_cases i
      norm_num
  · have hn1 : (0 : ℝ) < ((n - 1 : ℕ) : ℝ) := by
      have : 1 ≤ n - 1 := by omega
      exact_mod_cast Nat.lt_of_lt_of_le Nat.zero_lt_one this
    rw [div_le_one hn1]
    exact_mod_cast Nat.le_sub_one_of_lt h

theorem generateWallPoints_invariant (au al vo vi vn tc : List Point2D)
    (cx cy r ang : ℝ) (l : List WallPoint)
    (hl : l = generateWallPoints au al vo vi vn tc cx cy r ang) :
    ∀ wp ∈ l, 0 ≤ wp.paramPosition ∧ wp.paramPosition ≤ 1 ∧
      wp.regionType ∈ allRegionTypes := by
  intro wp hmem
  rw [hl] at hmem
  simp only [generateWallPoints, List.mem_append] at hmem
  rcases hmem with ((((h | h) | h) | h) | h)
  · rw [List.mem_filterMap] at h
    obtain ⟨i, hi, heq⟩ := h
    rw [List.mem_range] at hi
    split_ifs at heq
    all_goals simp only [Option.some.injEq] at heq
    all_goals subst heq
    all_goals exact ⟨(param_frac_bounds i _ hi).1, (param_frac_bounds i _ hi).2,
      regionType_mem_all _⟩
  · rw [List.mem_map] at h
    obtain ⟨i, hi, heq⟩ := h
    rw [List.mem_range] at hi
    subst heq
    exact ⟨(param_frac_bounds i _ hi).1, (param_frac_bounds i _ hi).2,
      regionType_mem_all _⟩
  · rw [List.mem_map] at h
    obtain ⟨i, hi, heq⟩ := h
    rw [List.mem_range] at hi
    subst heq
    exact ⟨(param_frac_bounds i _ hi).1, (param_frac_bounds i _ hi).2,
      regionType_mem_all _⟩
  · rw [List.mem_filterMap] at h
    obtain ⟨i, hi, heq⟩ := h
    rw [List.mem_range] at hi
    split_ifs at heq
    all_goals simp only [Option.some.injEq] at heq
    all_goals subst heq
    all_goals exact ⟨(param_frac_bounds i _ hi).1, (param_frac_bounds i _ hi).2,
      regionType_mem_all _⟩
  · rw [List.mem_filterMap] at h
    obtain ⟨i, hi, heq⟩ := h
    rw [List.mem_range] at hi
    split_ifs at heq
    all_goals simp only [Option.some.injEq] at heq
    all_goals subst heq
    all_goals exact ⟨(param_frac_bounds i _ hi).1, (param_frac_bounds i _ hi).2,
      regionType_mem_all _⟩

/-- C6: for positive diameters and an anastomosis angle in (0, 90], every wall
point of the generated geometry has paramPosition in [0, 1] and a region tag
from the fixed closed set of eight region types, and the number of wall
points is a deterministic function of the three inputs. -/
theorem generateGeometry_wallPoints_correct (aD vD θ : ℝ)
    (ha : 0 < aD) (hv : 0 < vD) (h1 : 0 < θ) (h2 : θ ≤ 90) :
    (∀ wp ∈ (generateGeometry aD vD θ).wallPoints,
        0 ≤ wp.paramPosition ∧ wp.paramPosition ≤ 1 ∧
          wp.regionType ∈ allRegionTypes) ∧
      ∀ aD2 vD2 θ2 : ℝ, aD = aD2 → vD = vD2 → θ = θ2 →
        (generateGeometry aD vD θ).wallPoints.length
          = (generateGeometry aD2 vD2 θ2).wallPoints.length := by
  constructor
  · intro wp hmem
    simp only [generateGeometry] at hmem
    exact generateWallPoints_invariant _ _ _ _ _ _ _ _ _ _ _ rfl wp hmem
  · rintro aD2 vD2 θ2 rfl rfl rfl
    rfl

/-- C6 witness at the default geometry parameters. -/
theorem generateGeometry_wallPoints_correct_witness :
    (∀ wp ∈ (generateGeometry 4 4 45).wallPoints,
        0 ≤ wp.paramPosition ∧ wp.paramPosition ≤ 1 ∧
          wp.regionType ∈ allRegionTypes) ∧
      ∀ aD2 vD2 θ2 : ℝ, (4 : ℝ) = aD2 → (4 : ℝ) = vD2 → (45 : ℝ) = θ2 →
        (generateGeometry 4 4 45).wallPoints.length
          = (generateGeometry aD2 vD2 θ2).wallPoints.length :=
  generateGeometry_wallPoints_correct 4 4 45 (by norm_num) (by norm_num)
    (by norm_num) (by norm_num)

/- ### C7: geometry generation is total at steep angles -/

theorem veinDeriv_y_closed_form (ang t : ℝ) :
    (cubicBezierDeriv t veinP0 (veinP1 ang) veinP2 veinP3).y
      = -420 * (1 - t) ^ 2 * Real.sin ang
        + 6 * (1 - t) * t * (140 * Real.sin ang - 280) := by
  simp only [cubicBezierDeriv, veinP0, veinP1, veinP2, veinP3, geomCx, geomCy,
    CANVAS_width, CANVAS_height, veinCurveLength]
  ring

/-- C7: for any positive diameters and any anastomosis angle in (0, 90] — in
particular at 90 and 89.9 degrees — the two divisors inside generateGeometry
are strictly positive: the sine of the angle dividing the opening width in
modifyArteryWallForAnastomosis, and the derivative length normalizing each
of the 50 sampled vein Bezier tangents in cubicBezierTangent. -/
theorem generateGeometry_total_steep (aD vD θ : ℝ)
    (ha : 0 < aD) (hv : 0 < vD) (h1 : 0 < θ) (h2 : θ ≤ 90) :
    0 < Real.sin (θ * π / 180) ∧
      ∀ i ∈ List.range 50,
        0 < Real.sqrt
          ((cubicBezierDeriv ((i : ℝ) / ((50 - 1 : ℕ) : ℝ)) veinP0 (veinP1 (θ * π / 180))
              veinP2 veinP3).x ^ 2 +
            (cubicBezierDeriv ((i : ℝ) / ((50 - 1 : ℕ) : ℝ)) veinP0 (veinP1 (θ * π / 180))
              veinP2 veinP3).y ^ 2) := by
  have hrad0 : 0 < θ * π / 180 := by positivity
  have hradpi : θ * π / 180 < π := by
    have h180 : 0 < π * (180 - θ) := mul_pos pi_pos (by linarith)
    nlinarith
  have hsin : 0 < Real.sin (θ * π / 180) := Real.sin_pos_of_pos_of_lt_pi hrad0 hradpi
  refine ⟨hsin, fun i hi => ?_⟩
  rw [List.mem_range] at hi
  have hsle : Real.sin (θ * π / 180) ≤ 1 := Real.sin_le_one _
  set t := (i : ℝ) / ((50 - 1 : ℕ) : ℝ) with ht
  have hdy := veinDeriv_y_closed_form (θ * π / 180) t
  set s := Real.sin (θ * π / 180) with hs
  rcases Nat.lt_or_ge i 49 with hlt | hge
  · have ht0 : 0 ≤ t := by positivity
    have ht1 : t < 1 := by
      rw [ht, div_lt_one (by norm_num)]
      exact_mod_cast hlt
    have h1t : 0 < 1 - t := by linarith
    have hA : 0 < 420 * (1 - t) ^ 2 * s := by
      nlinarith [mul_pos (mul_pos h1t h1t) hsin]
    have hB : 6 * (1 - t) * t * (140 * s - 280) ≤ 0 :=
      mul_nonpos_of_nonneg_of_nonpos
        (mul_nonneg (mul_nonneg (by norm_num) h1t.le) ht0) (by nlinarith)
    have hdyneg : (cubicBezierDeriv t veinP0 (veinP1 (θ * π / 180)) veinP2 veinP3).y < 0 := by
      rw [hdy]; nlinarith
    apply Real.sqrt_pos.mpr
    nlinarith [sq_nonneg (cubicBezierDeriv t veinP0 (veinP1 (θ * π / 180)) veinP2 veinP3).x]
  · have hi49 : i = 49 := by omega
    have ht1 : t = 1 := by rw [ht, hi49]; norm_num
    have hdx : (cubicBezierDeriv t veinP0 (veinP1 (θ * π / 180)) veinP2 veinP3).x = -420 := by
      rw [ht1]
      simp only [cubicBezierDeriv, veinP0, veinP1, veinP2, veinP3, geomCx, geomCy,
        CANVAS_width, CANVAS_height, veinCurveLength]
      ring
    apply Real.sqrt_pos.mpr
    rw [hdx]
    nlinarith [sq_nonneg (cubicBezierDeriv t veinP0 (veinP1 (θ * π / 180)) veinP2 veinP3).y]

/-- C7 witness at the 90-degree boundary angle. -/
theorem generateGeometry_total_steep_witness :
    0 < Real.sin ((90 : ℝ) * π / 180) ∧
      ∀ i ∈ List.range 50,
        0 < Real.sqrt
          ((cubicBezierDeriv ((i : ℝ) / ((50 - 1 : ℕ) : ℝ)) veinP0 (veinP1 ((90 : ℝ) * π / 180))
              veinP2 veinP3).x ^ 2 +
            (cubicBezierDeriv ((i : ℝ) / ((50 - 1 : ℕ) : ℝ)) veinP0 (veinP1 ((90 : ℝ) * π / 180))
              veinP2 veinP3).y ^ 2) :=
  generateGeometry_total_steep 4 4 90 (by norm_num) (by norm_num) (by norm_num) (by norm_num)

/- ### Hemodynamics orchestrator (source: wss-calculator.ts) -/

/-- Per-point wall shear stress metrics (source: types, WSSData). -/
structure WSSData where
  tawss : ℝ
  osi : ℝ
  rrt : ℝ

/-- Region-specific empirical WSS correction factor
(source: wss-calculator.ts, getRegionCorrectionFactor). -/
noncomputable def getRegionCorrectionFactor (region : RegionType)
    (angleRad diameterRatio : ℝ) : ℝ :=
  match region with
  | .proximal_artery => 1.0
  | .distal_artery => 0.85
  | .anastomosis_outer => 1.0 + 2.0 * Real.sin angleRad * Real.sqrt diameterRatio
  | .anastomosis_toe => 1.0 + 1.5 * Real.cos (angleRad / 2)
  | .anastomosis_heel => 1.0 + 0.5 * Real.sin angleRad
  | .anastomosis_floor =>
      0.15 * (1 - 0.5 * Real.sin (angleRad / 2)) / diameterRatio ^ (0.3 : ℝ)
  | .vein_outer => 1.1 + 0.3 * Real.sin angleRad
  | .vein_inner => 0.7

/-- Whether a wall region is treated as recirculating by the OSI model
(source: wss-calculator.ts, calculateOSI, isRecirculation). -/
def isRecirculation (region : RegionType) (angleRad : ℝ) : Prop :=
  region = .anastomosis_floor ∨ (region = .vein_inner ∧ π / 6 < angleRad)

open Classical in
/-- OSI of a WSS time series (source: wss-calculator.ts, calculateOSI). -/
noncomputable def calculateOSI (wssTimeSeries : List ℝ) (region : RegionType)
    (angleRad : ℝ) : ℝ :=
  if isRecirculation region angleRad then
    let reversalFraction := 0.3 + 0.4 * Real.sin angleRad
    let len := wssTimeSeries.length
    let sumAbs := (wssTimeSeries.map (fun w => |w|)).sum
    let sumSigned := ((List.range len).map (fun i =>
      let w := wssTimeSeries.getD i 0
      let phase := (i : ℝ) / (len : ℝ) * (2 * π)
      w * (if 0.3 < Real.sin phase then 1 else -reversalFraction))).sum
    let osi := 0.5 * (1 - |sumSigned| / (sumAbs + 1e-10))
    min (max osi 0) 0.5
  else
    let mean := wssTimeSeries.sum / (wssTimeSeries.length : ℝ)
    let variance := (wssTimeSeries.map (fun b => (b - mean) ^ 2)).sum /
      (wssTimeSeries.length : ℝ)
    let cv := Real.sqrt variance / (mean + 1e-10)
    min (0.05 + cv * 0.1) 0.15

/-- RRT with floored denominator (source: wss-calculator.ts, calculateRRT). -/
noncomputable def calculateRRT (tawss osi : ℝ) : ℝ :=
  let denominator := (1 - 2 * osi) * tawss
  if denominator < 0.01 then 100 else 1 / denominator

/-- Per-wall-point WSS/OSI/RRT computation: steps 1 through 6 of
calculateHemodynamics (source: wss-calculator.ts, calculateHemodynamics,
the wallWSS map). -/
noncomputable def calculateWallWSS (params : SimulationParams) :
    List (WallPoint × WSSData) :=
  let geometry := generateGeometry params.arteryDiameter params.veinDiameter
    params.anastomosisAngle
  let flowSplit := calculateFlowSplit params
  let waveform := generatePulsatileWaveform params.heartRate params.systolicRatio 20
  let angleRad := params.anastomosisAngle * π / 180
  let diameterRatio := params.veinDiameter / params.arteryDiameter
  let arteryFlow_m3s := params.bloodFlowRate / (1e6 * 60)
  let arteryRadius_m := params.arteryDiameter / 2 * 1e-3
  let arteryShearRate := wallShearRate arteryFlow_m3s arteryRadius_m
  let arteryViscosity := carreauViscosity arteryShearRate params.hematocrit
  let baseWSS_artery := arteryViscosity * arteryShearRate
  let veinFlow_m3s := flowSplit.veinFlowRate / (1e6 * 60)
  let veinRadius_m := params.veinDiameter / 2 * 1e-3
  let veinShearRate := wallShearRate veinFlow_m3s veinRadius_m
  let veinViscosity := carreauViscosity veinShearRate params.hematocrit
  let baseWSS_vein := veinViscosity * veinShearRate
  geometry.wallPoints.map (fun wp =>
    let baseWSS := if wp.regionType.isVein then baseWSS_vein else baseWSS_artery
    let correction := getRegionCorrectionFactor wp.regionType angleRad diameterRatio
    let spatialVariation := 1 + 0.1 * Real.sin (wp.paramPosition * π * 4)
    let wssTimeSeries := waveform.map (fun w => baseWSS * correction * spatialVariation * w)
    let tawss := (wssTimeSeries.map (fun b => |b|)).sum / (wssTimeSeries.length : ℝ)
    let osi := calculateOSI wssTimeSeries wp.regionType angleRad
    let rrt := calculateRRT tawss osi
    (wp, ⟨tawss, osi, rrt⟩))

/- ### C5: RRT is bounded in [0, 100] -/

/-- C5: for every positive TAWSS and OSI in [0, 0.5], the RRT with its
denominator floored at 0.01 lies in [0, 100]. -/
theorem calculateRRT_bounds (tawss osi : ℝ) (ht : 0 < tawss)
    (h0 : 0 ≤ osi) (h5 : osi ≤ 0.5) :
    0 ≤ calculateRRT tawss osi ∧ calculateRRT tawss osi ≤ 100 := by
  rw [calculateRRT]
  split_ifs with h
  · norm_num
  · push_neg at h
    constructor
    · positivity
    · rw [div_le_iff (by linarith)]
      linarith

/-- C5 witness at TAWSS 2 Pa and OSI 0.1. -/
theorem calculateRRT_bounds_witness :
    0 ≤ calculateRRT 2 0.1 ∧ calculateRRT 2 0.1 ≤ 100 :=
  calculateRRT_bounds 2 0.1 (by norm_num) (by norm_num) (by norm_num)

/- ### C4: OSI bounds at every wall point -/

theorem getRegionCorrectionFactor_nonneg (region : RegionType) (angleRad ratio : ℝ)
    (h0 : 0 ≤ angleRad) (h1 : angleRad ≤ π / 2) (hr : 0 < ratio) :
    0 ≤ getRegionCorrectionFactor region angleRad ratio := by
  have hsin : 0 ≤ Real.sin angleRad :=
    Real.sin_nonneg_of_nonneg_of_le_pi h0 (by linarith [pi_pos])
  cases region with
  | proximal_artery => norm_num [getRegionCorrectionFactor]
  | distal_artery => norm_num [getRegionCorrectionFactor]
  | vein_outer => simp only [getRegionCorrectionFactor]; nlinarith
  | vein_inner => norm_num [getRegionCorrectionFactor]
  | anastomosis_toe =>
      have hcos : 0 ≤ Real.cos (angleRad / 2) :=
        Real.cos_nonneg_of_mem_Icc ⟨by linarith [pi_pos], by linarith⟩
      simp only [getRegionCorrectionFactor]; nlinarith
  | anastomosis_heel => simp only [getRegionCorrectionFactor]; nlinarith
  | anastomosis_floor =>
      have hs2 : Real.sin (angleRad / 2) ≤ 1 := Real.sin_le_one _
      have hp : 0 < ratio ^ (0.3 : ℝ) := Real.rpow_pos_of_pos hr _
      simp only [getRegionCorrectionFactor]
      exact div_nonneg (by nlinarith) hp.le
  | anastomosis_outer =>
      simp only [getRegionCorrectionFactor]
      nlinarith [mul_nonneg hsin (Real.sqrt_nonneg ratio)]

theorem wallShearRate_nonneg (Q r : ℝ) (hQ : 0 ≤ Q) (hr : 0 < r) :
    0 ≤ wallShearRate Q r := by
  simp only [wallShearRate, CARREAU]
  have hden : 0 < π * r ^ 3 := mul_pos pi_pos (pow_pos hr 3)
  have h1 : 0 ≤ 4 * Q / (π * r ^ 3) := div_nonneg (by linarith) hden.le
  nlinarith

theorem flowSplit_veinFlowRate_nonneg (p : SimulationParams)
    (ha : 0 < p.arteryDiameter) (hv : 0 < p.veinDiameter)
    (hQ : 0 ≤ p.bloodFlowRate) :
    0 ≤ (calculateFlowSplit p).veinFlowRate := by
  simp only [calculateFlowSplit]
  have hRv : 0 < 100 / (p.veinDiameter / 2) ^ 4 := by positivity
  have hAC : 0 < 1 + 0.5 * (p.anastomosisAngle * π / 180 / (π / 2)) ^ 2 := by positivity
  have hRd : 0 < 80 / (p.arteryDiameter / 2 * 0.8) ^ 4 := by positivity
  positivity

theorem calculateOSI_bounds (series : List ℝ) (region : RegionType) (angleRad : ℝ)
    (hnn : ∀ x ∈ series, 0 ≤ x) :
    0 ≤ calculateOSI series region angleRad ∧ calculateOSI series region angleRad ≤ 0.5 ∧
      (¬ isRecirculation region angleRad → calculateOSI series region angleRad ≤ 0.15) := by
  rw [calculateOSI]
  split_ifs with h
  · exact ⟨le_min (le_max_right _ _) (by norm_num), min_le_right _ _,
      fun hc => absurd h hc⟩
  · have hmean : 0 ≤ series.sum / (series.length : ℝ) :=
      div_nonneg (List.sum_nonneg hnn) (Nat.cast_nonneg _)
    have hvar : 0 ≤ (series.map
        (fun b => (b - series.sum / (series.length : ℝ)) ^ 2)).sum / (series.length : ℝ) := by
      apply div_nonneg _ (Nat.cast_nonneg _)
      apply List.sum_nonneg
      intro x hx
      rw [List.mem_map] at hx
      obtain ⟨b, _, rfl⟩ := hx
      positivity
    have hcv : 0 ≤ Real.sqrt ((series.map
        (fun b => (b - series.sum / (series.length : ℝ)) ^ 2)).sum / (series.length : ℝ)) /
        (series.sum / (series.length : ℝ) + 1e-10) :=
      div_nonneg (Real.sqrt_nonneg _) (by norm_num; linarith)
    refine ⟨le_min (by nlinarith) (by norm_num),
      le_trans (min_le_right _ _) (by norm_num), fun _ => min_le_right _ _⟩

/-- C4: every wall point produced by the hemodynamics orchestrator has OSI in
[0, 0.5]; wall points whose region is neither the anastomosis floor nor the
vein-inner region with anastomosis angle above 30 degrees have OSI at most
0.15. -/
theorem calculateWallWSS_osi_bounds (p : SimulationParams)
    (ha : 0 < p.arteryDiameter) (hv : 0 < p.veinDiameter)
    (hθ0 : 0 < p.anastomosisAngle) (hθ1 : p.anastomosisAngle ≤ 90)
    (hQ : 0 ≤ p.bloodFlowRate) :
    ∀ pd ∈ calculateWallWSS p,
      0 ≤ pd.2.osi ∧ pd.2.osi ≤ 0.5 ∧
        (¬ (pd.1.regionType = RegionType.anastomosis_floor ∨
            (pd.1.regionType = RegionType.vein_inner ∧ 30 < p.anastomosisAngle)) →
          pd.2.osi ≤ 0.15) := by
  intro pd hmem
  simp only [calculateWallWSS] at hmem
  rw [List.mem_map] at hmem
  obtain ⟨wp, hwp, rfl⟩ := hmem
  dsimp only
  have hang0 : 0 ≤ p.anastomosisAngle * π / 180 := by positivity
  have hang1 : p.anastomosisAngle * π / 180 ≤ π / 2 := by nlinarith [pi_pos]
  have hratio : 0 < p.veinDiameter / p.arteryDiameter := by positivity
  have hbase : 0 ≤ (if wp.regionType.isVein then
      carreauViscosity (wallShearRate ((calculateFlowSplit p).veinFlowRate / (1e6 * 60))
        (p.veinDiameter / 2 * 1e-3)) p.hematocrit *
        wallShearRate ((calculateFlowSplit p).veinFlowRate / (1e6 * 60))
          (p.veinDiameter / 2 * 1e-3)
    else
      carreauViscosity (wallShearRate (p.bloodFlowRate / (1e6 * 60))
        (p.arteryDiameter / 2 * 1e-3)) p.hematocrit *
        wallShearRate (p.bloodFlowRate / (1e6 * 60)) (p.arteryDiameter / 2 * 1e-3)) := by
    split_ifs
    · exact mul_nonneg (carreauViscosity_pos _ _).le
        (wallShearRate_nonneg _ _
          (div_nonneg (flowSplit_veinFlowRate_nonneg p ha hv hQ) (by norm_num))
          (by positivity))
    · exact mul_nonneg (carreauViscosity_pos _ _).le
        (wallShearRate_nonneg _ _ (div_nonneg hQ (by norm_num)) (by positivity))
  have hcorr : 0 ≤ getRegionCorrectionFactor wp.regionType (p.anastomosisAngle * π / 180)
      (p.veinDiameter / p.arteryDiameter) :=
    getRegionCorrectionFactor_nonneg _ _ _ hang0 hang1 hratio
  have hspat : 0 ≤ 1 + 0.1 * Real.sin (wp.paramPosition * π * 4) := by
    nlinarith [Real.neg_one_le_sin (wp.paramPosition * π * 4)]
  have hnn : ∀ x ∈ (generatePulsatileWaveform p.heartRate p.systolicRatio 20).map
      (fun w => (if wp.regionType.isVein then
          carreauViscosity (wallShearRate ((calculateFlowSplit p).veinFlowRate / (1e6 * 60))
            (p.veinDiameter / 2 * 1e-3)) p.hematocrit *
            wallShearRate ((calculateFlowSplit p).veinFlowRate / (1e6 * 60))
              (p.veinDiameter / 2 * 1e-3)
        else
          carreauViscosity (wallShearRate (p.bloodFlowRate / (1e6 * 60))
            (p.arteryDiameter / 2 * 1e-3)) p.hematocrit *
            wallShearRate (p.bloodFlowRate / (1e6 * 60)) (p.arteryDiameter / 2 * 1e-3)) *
        getRegionCorrectionFactor wp.regionType (p.anastomosisAngle * π / 180)
          (p.veinDiameter / p.arteryDiameter) *
        (1 + 0.1 * Real.sin (wp.paramPosition * π * 4)) * w), 0 ≤ x := by
    intro x hx
    rw [List.mem_map] at hx
    obtain ⟨w, hw, rfl⟩ := hx
    have hwpos := waveform_elem_pos p.heartRate p.systolicRatio 20 (by norm_num) w hw
    exact mul_nonneg (mul_nonneg (mul_nonneg hbase hcorr) hspat) hwpos.le
  obtain ⟨hO0, hO5, hO15⟩ := calculateOSI_bounds _ wp.regionType
    (p.anastomosisAngle * π / 180) hnn
  refine ⟨hO0, hO5, fun hc => hO15 ?_⟩
  rintro (hfl | ⟨hvi, hang⟩)
  · exact hc (Or.inl hfl)
  · refine hc (Or.inr ⟨hvi, ?_⟩)
    nlinarith [pi_pos]

/-- C4 witness at the default clinical parameters. -/
theorem calculateWallWSS_osi_bounds_witness :
    (0 : ℝ) < 4 ∧ (0 : ℝ) < 45 ∧ (45 : ℝ) ≤ 90 ∧ (0 : ℝ) ≤ 600 ∧
      ∀ pd ∈ calculateWallWSS ⟨4, 4, 45, 600, 600, 0.4, 75, 90, 0.35⟩,
        0 ≤ pd.2.osi ∧ pd.2.osi ≤ 0.5 ∧
          (¬ (pd.1.regionType = RegionType.anastomosis_floor ∨
              (pd.1.regionType = RegionType.vein_inner ∧
                30 < (⟨4, 4, 45, 600, 600, 0.4, 75, 90, 0.35⟩ :
                  SimulationParams).anastomosisAngle)) →
            pd.2.osi ≤ 0.15) :=
  ⟨by norm_num, by norm_num, by norm_num, by norm_num,
    calculateWallWSS_osi_bounds ⟨4, 4, 45, 600, 600, 0.4, 75, 90, 0.35⟩
      (by norm_num) (by norm_num) (by norm_num) (by norm_num) (by norm_num)⟩

end AVF
